import Mathlib

/-!
Verification development for the Hoopscraper repository
(`Hoopscraper.py` together with `config.py`).

The Python code is shallowly embedded:

* Python strings are `String` (or `List Char` where character-level
  manipulation is what the source does);
* a JSON value stored in the output file is a `JElem`: either a dict with
  the scraper's record schema (`MatchRec`, keeping exactly the fields that
  affect identity and ordering: `match_id`, `stage`, `date`, `scraped_at`;
  the remaining payload fields are opaque and never inspected by the code
  under verification) or a non-dict value, which only matters through its
  truthiness;
* the persisted artifact is a `JsonFile`: missing, present-but-not-a-list
  (this also covers a file whose JSON fails to parse: both raise/fail the
  `isinstance(..., list)` test and are treated identically by every
  consumer in the source), or a list of `JElem`;
* functions that can raise a Python exception that escapes them return
  `Except Unit _`; functions whose exceptions are caught internally are
  total;
* Selenium element reads are modelled by their results: a `Row` carries
  the (already `.strip()`ed) texts and attributes the code reads from it,
  an element that `find_element` does not find is `none`;
* the driver/session and the per-match network interaction are modelled
  by an oracle `ScrapeEnv`: `sessionOk k` says whether driver acquisition
  succeeds in while-iteration `k` of the reconnection loop, and
  `outcome k id` says what processing match `id` during iteration `k`
  does (succeeds with some extracted fields, fails with a caught
  exception, or raises `WebDriverException`).
-/

/-- A Python value stored under a dict key: either a `str`, or some other
value of which the code only ever observes truthiness
(`isinstance(x, str)` fails on it). -/
inductive PyVal where
  | str (s : String)
  | other (truthy : Bool)
deriving DecidableEq, Repr

/-- The scraper's record dict. `date` and `scraped_at` are `Option PyVal`:
`none` models an absent key (`dict.get` returns `None`). All dicts written
by the scraper carry a `match_id` key (`extract_match_data` always emits
one and `scrape_match_with_error_handling` overwrites it). -/
structure MatchRec where
  match_id : String
  stage : String
  date : Option PyVal
  scraped_at : Option PyVal
deriving DecidableEq, Repr

/-- One element of the persisted JSON list: a record dict, or any
non-dict JSON value (string, number, null, ...), of which only the
truthiness is observable before `.get` is attempted on it. `null` is
`nondict false`. -/
inductive JElem where
  | dict (m : MatchRec)
  | nondict (truthy : Bool)
deriving DecidableEq, Repr

/-- State of the output file. `nonlist` covers both a JSON document that
is not a list and an unparseable file: every consumer in the source treats
the two identically (empty data / no-op failure). -/
inductive JsonFile where
  | missing
  | nonlist
  | list (data : List JElem)
deriving DecidableEq, Repr

/-! ### Character/string helpers (Python `str` methods used by the code) -/

/-- Python `str.strip()` on a character list. -/
def stripChars (cs : List Char) : List Char :=
  ((cs.dropWhile Char.isWhitespace).reverse.dropWhile Char.isWhitespace).reverse

/-- Python `str.strip()`. -/
def pyStrip (s : String) : String :=
  ⟨stripChars s.data⟩

/-- `attr.split('_')[-1]`: the characters after the last underscore
(the whole list when there is none; `''.split('_')[-1] = ''` as well). -/
def afterLastUnderscore (cs : List Char) : List Char :=
  (cs.reverse.takeWhile (fun c => c ≠ '_')).reverse

/-- `match_id_attr.split('_')[-1]` from `get_match_id_list`. -/
def cleanMatchId (attr : String) : String :=
  ⟨afterLastUnderscore attr.data⟩

/-- Truthiness of an optional string (`None` and `''` are falsy). -/
def truthyOpt : Option String → Bool
  | none => false
  | some s => s ≠ ""

/-- Python `pat in t` (substring containment) on character lists. -/
def containsSub (pat : List Char) : List Char → Bool
  | [] => decide (pat = [])
  | c :: rest => pat.isPrefixOf (c :: rest) || containsSub pat rest

/-- Fuel-driven worker for `replaceSub`; each step consumes at least one
character, so `cs.length` fuel suffices. -/
def replaceAux (pat repl : List Char) : Nat → List Char → List Char
  | 0, cs => cs
  | _ + 1, [] => []
  | fuel + 1, c :: rest =>
    if pat ≠ [] ∧ pat.isPrefixOf (c :: rest) then
      repl ++ replaceAux pat repl fuel (List.drop pat.length (c :: rest))
    else
      c :: replaceAux pat repl fuel rest

/-- Python `str.replace(pat, repl)`: left-to-right, non-overlapping. -/
def replaceSub (pat repl cs : List Char) : List Char :=
  replaceAux pat repl cs.length cs

/-! ### `normalize_league_url` -/

/-- Python `url.rstrip('/')`. -/
def rstripSlash (cs : List Char) : List Char :=
  (cs.reverse.dropWhile (fun c => c = '/')).reverse

/-- The literal suffix `'/results'`. -/
def resultsSuffix : List Char :=
  ['/', 'r', 'e', 's', 'u', 'l', 't', 's']

/-- Python `s.endswith(suffix)`: the last `|suffix|` characters of `s`
equal `suffix`. -/
def pyEndswith (cs suffix : List Char) : Bool :=
  decide (cs.reverse.take suffix.length = suffix.reverse)

/-- `normalize_league_url` (Hoopscraper.py lines 51-56), on the character
list of the URL. -/
def normalize_league_url (league_url : List Char) : List Char :=
  let clean_url := rstripSlash league_url
  if pyEndswith clean_url resultsSuffix then clean_url
  else clean_url ++ resultsSuffix

/-! ### datetimes and `_parse_match_datetime` -/

/-- The result of `datetime.strptime` for the formats the code uses:
year, month, day, hour, minute (seconds are always zero). -/
structure PyDateTime where
  year : Nat
  month : Nat
  day : Nat
  hour : Nat
  minute : Nat
deriving DecidableEq, Repr

/-- `datetime.min` (0001-01-01 00:00). -/
def datetimeMin : PyDateTime := ⟨1, 1, 1, 0, 0⟩

/-- Python datetime comparison: lexicographic on
(year, month, day, hour, minute). -/
def pyDateTimeLe (a b : PyDateTime) : Prop :=
  a.year < b.year ∨ (a.year = b.year ∧
    (a.month < b.month ∨ (a.month = b.month ∧
      (a.day < b.day ∨ (a.day = b.day ∧
        (a.hour < b.hour ∨ (a.hour = b.hour ∧ a.minute ≤ b.minute)))))))

instance (a b : PyDateTime) : Decidable (pyDateTimeLe a b) := by
  unfold pyDateTimeLe; infer_instance

theorem pyDateTimeLe_total (a b : PyDateTime) : pyDateTimeLe a b ∨ pyDateTimeLe b a := by
  unfold pyDateTimeLe; omega

theorem pyDateTimeLe_trans {a b c : PyDateTime} :
    pyDateTimeLe a b → pyDateTimeLe b c → pyDateTimeLe a c := by
  unfold pyDateTimeLe; omega

theorem pyDateTimeLe_antisymm {a b : PyDateTime} :
    pyDateTimeLe a b → pyDateTimeLe b a → a = b := by
  unfold pyDateTimeLe
  intro h1 h2
  cases a; cases b
  simp only [PyDateTime.mk.injEq]
  simp only at h1 h2
  omega

def digitVal (c : Char) : Nat := c.toNat - 48

/-- Parse one or (greedily) two digits whose value must lie in
`[lo, hi]`. This matches the CPython `_strptime` regexes for `%d` `%m`
`%H` `%M` whenever, as in all four formats used here, the field is
followed by a non-digit literal or by the end of the string. -/
def parseNum2 (lo hi : Nat) : List Char → Option (Nat × List Char)
  | [] => none
  | [c] =>
    if c.isDigit then
      let v := digitVal c
      if lo ≤ v ∧ v ≤ hi then some (v, []) else none
    else none
  | c1 :: c2 :: rest =>
    if c1.isDigit then
      if c2.isDigit then
        let v := digitVal c1 * 10 + digitVal c2
        if lo ≤ v ∧ v ≤ hi then some (v, rest) else none
      else
        let v := digitVal c1
        if lo ≤ v ∧ v ≤ hi then some (v, c2 :: rest) else none
    else none

/-- `%Y`: exactly four digits (CPython's regex is `\d\d\d\d`). The value
check `1 ≤ y` belongs to `datetime` construction (`MINYEAR = 1`) and is
performed by the callers together with the day-of-month check. -/
def parseYear4 : List Char → Option (Nat × List Char)
  | c1 :: c2 :: c3 :: c4 :: rest =>
    if c1.isDigit ∧ c2.isDigit ∧ c3.isDigit ∧ c4.isDigit then
      some (digitVal c1 * 1000 + digitVal c2 * 100 + digitVal c3 * 10 + digitVal c4, rest)
    else none
  | _ => none

/-- A literal character of the format string. -/
def parseLit (c : Char) : List Char → Option (List Char)
  | [] => none
  | x :: rest => if x = c then some rest else none

/-- Whitespace in the format string matches one or more whitespace
characters (`\s+`). -/
def parseWs1 : List Char → Option (List Char)
  | [] => none
  | x :: rest =>
    if x.isWhitespace then some (rest.dropWhile Char.isWhitespace) else none

def isLeapYear (y : Nat) : Bool :=
  y % 4 = 0 ∧ (y % 100 ≠ 0 ∨ y % 400 = 0)

def daysInMonth (y m : Nat) : Nat :=
  if m = 2 then (if isLeapYear y then 29 else 28)
  else if m = 4 ∨ m = 6 ∨ m = 9 ∨ m = 11 then 30
  else 31

/-- Validity check performed by `datetime` construction after the regex
match: year at least `MINYEAR` and day within the month. (Month and day
lower bounds are already enforced by the field regexes.) -/
def mkDateTime (y mo d h mi : Nat) : Option PyDateTime :=
  if 1 ≤ y ∧ d ≤ daysInMonth y mo then some ⟨y, mo, d, h, mi⟩ else none

/-- `datetime.strptime(s, "%d.%m.%Y %H:%M")`, requiring full consumption
of the input ("unconverted data remains" otherwise). -/
def strptimeDMYHM (cs : List Char) : Option PyDateTime := do
  let (d, cs) ← parseNum2 1 31 cs
  let cs ← parseLit '.' cs
  let (mo, cs) ← parseNum2 1 12 cs
  let cs ← parseLit '.' cs
  let (y, cs) ← parseYear4 cs
  let cs ← parseWs1 cs
  let (h, cs) ← parseNum2 0 23 cs
  let cs ← parseLit ':' cs
  let (mi, cs) ← parseNum2 0 59 cs
  if cs = [] then mkDateTime y mo d h mi else none

/-- `datetime.strptime(s, "%d.%m.%Y")`. -/
def strptimeDMY (cs : List Char) : Option PyDateTime := do
  let (d, cs) ← parseNum2 1 31 cs
  let cs ← parseLit '.' cs
  let (mo, cs) ← parseNum2 1 12 cs
  let cs ← parseLit '.' cs
  let (y, cs) ← parseYear4 cs
  if cs = [] then mkDateTime y mo d 0 0 else none

/-- `datetime.strptime(s, "%Y-%m-%d %H:%M")`. -/
def strptimeYMDHM (cs : List Char) : Option PyDateTime := do
  let (y, cs) ← parseYear4 cs
  let cs ← parseLit '-' cs
  let (mo, cs) ← parseNum2 1 12 cs
  let cs ← parseLit '-' cs
  let (d, cs) ← parseNum2 1 31 cs
  let cs ← parseWs1 cs
  let (h, cs) ← parseNum2 0 23 cs
  let cs ← parseLit ':' cs
  let (mi, cs) ← parseNum2 0 59 cs
  if cs = [] then mkDateTime y mo d h mi else none

/-- `datetime.strptime(s, "%Y-%m-%d")`. -/
def strptimeYMD (cs : List Char) : Option PyDateTime := do
  let (y, cs) ← parseYear4 cs
  let cs ← parseLit '-' cs
  let (mo, cs) ← parseNum2 1 12 cs
  let cs ← parseLit '-' cs
  let (d, cs) ← parseNum2 1 31 cs
  if cs = [] then mkDateTime y mo d 0 0 else none

/-- The first `for fmt in [...]` loop of `_parse_match_datetime`:
try the four `date` formats in order on `date_str.strip()`. -/
def tryDateFormats (s : String) : Option PyDateTime :=
  let cs := (pyStrip s).data
  (strptimeDMYHM cs) <|> (strptimeDMY cs) <|> (strptimeYMDHM cs) <|> (strptimeYMD cs)

/-- The fallback loop on `scraped_at`: formats `%Y-%m-%d` then
`%Y-%m-%d %H:%M`. -/
def tryScrapedFormats (s : String) : Option PyDateTime :=
  let cs := (pyStrip s).data
  (strptimeYMD cs) <|> (strptimeYMDHM cs)

/-- `date_str = (match or {}).get('date') or ''` followed by
`isinstance(date_str, str)`: yields the string to feed to the format
loop, or `none` when the branch is skipped (truthy non-string value). -/
def pyFieldStr : Option PyVal → Option String
  | none => some ""
  | some (.str s) => some s
  | some (.other t) => if t then none else some ""

/-- `_parse_match_datetime` restricted to a dict with the given `date`
and `scraped_at` values (also models the `None`/falsy argument, for which
`(match or {})` turns the lookup into `{}.get`, i.e. both fields absent).
Python's final `return dt or datetime.min` (datetimes are always truthy). -/
def parseDictDatetime (dateV scrapedV : Option PyVal) : PyDateTime :=
  let dt := (pyFieldStr dateV).bind tryDateFormats
  let dt := match dt with
    | some d => some d
    | none => (pyFieldStr scrapedV).bind tryScrapedFormats
  dt.getD datetimeMin

/-- `_parse_match_datetime` (Hoopscraper.py lines 116-140). A truthy
non-dict argument raises `AttributeError` at `(match or {}).get('date')`
(strings, numbers and lists have no `.get`), which escapes the function:
there is no `try` around that expression. -/
def parse_match_datetime : JElem → Except Unit PyDateTime
  | .dict r => .ok (parseDictDatetime r.date r.scraped_at)
  | .nondict t => if t then .error () else .ok (parseDictDatetime none none)

/-- The sort key of an element (its parsed datetime, `datetime.min` when
the parse raises; only used to state properties of sorted output). -/
def keyOf (e : JElem) : PyDateTime :=
  match parse_match_datetime e with
  | .ok d => d
  | .error _ => datetimeMin

/-! ### `_sort_matches` and `reorder_json_file` -/

/-- The key pre-pass of Python `sorted(data, key=...)`: compute the key of
every element in order; the first raised exception propagates. -/
def computeKeys : List JElem → Except Unit (List (JElem × PyDateTime))
  | [] => .ok []
  | e :: rest =>
    match parse_match_datetime e with
    | .error u => .error u
    | .ok d =>
      match computeKeys rest with
      | .error u => .error u
      | .ok ks => .ok ((e, d) :: ks)

/-- `reverse=True` comparison on keyed elements: `a` may precede `b` iff
`key b ≤ key a`. -/
def descKeyRel (a b : JElem × PyDateTime) : Prop :=
  pyDateTimeLe b.2 a.2

/-- Ascending comparison on keyed elements. -/
def ascKeyRel (a b : JElem × PyDateTime) : Prop :=
  pyDateTimeLe a.2 b.2

instance : DecidableRel descKeyRel := fun a b => by
  unfold descKeyRel; infer_instance

instance : DecidableRel ascKeyRel := fun a b => by
  unfold ascKeyRel; infer_instance

instance : IsTotal (JElem × PyDateTime) descKeyRel :=
  ⟨fun a b => (pyDateTimeLe_total b.2 a.2).elim Or.inl Or.inr⟩

instance : IsTrans (JElem × PyDateTime) descKeyRel :=
  ⟨fun _ _ _ h1 h2 => pyDateTimeLe_trans h2 h1⟩

instance : IsTotal (JElem × PyDateTime) ascKeyRel :=
  ⟨fun a b => (pyDateTimeLe_total a.2 b.2).elim Or.inl Or.inr⟩

instance : IsTrans (JElem × PyDateTime) ascKeyRel :=
  ⟨fun _ _ _ h1 h2 => pyDateTimeLe_trans h1 h2⟩

/-- `_sort_matches(data, order)` (Hoopscraper.py lines 142-144):
`sorted(data, key=_parse_match_datetime, reverse=(order == 'desc'))`.
Python's sort is stable; `List.insertionSort` with the "may precede"
relation computes exactly the stable sort. A raised key exception
propagates to the caller. -/
def sort_matches (data : List JElem) (order : String) : Except Unit (List JElem) :=
  let rev := order == "desc"
  match computeKeys data with
  | .error u => .error u
  | .ok keyed =>
    .ok ((if rev then List.insertionSort descKeyRel keyed
          else List.insertionSort ascKeyRel keyed).map Prod.fst)

/-- `reorder_json_file(filepath, order)` (Hoopscraper.py lines 146-165).
Returns the new file state and the boolean result; a missing file, a
non-list document, or an exception during sorting leaves the file
untouched and returns `False`. -/
def reorder_json_file (f : JsonFile) (order : String) : JsonFile × Bool :=
  match f with
  | .missing => (f, false)
  | .nonlist => (f, false)
  | .list data =>
    match sort_matches data order with
    | .ok sorted => (.list sorted, true)
    | .error _ => (f, false)

/-! ### Result-store operations -/

/-- `load_existing_match_ids(filepath)` (Hoopscraper.py lines 100-114):
the ids of the dict elements of the persisted list (a Python `set`,
modelled as a list used only through membership). Missing or unreadable
or non-list files yield the empty set. -/
def load_existing_match_ids (f : JsonFile) : List String :=
  match f with
  | .list data =>
    data.filterMap (fun e => match e with
      | .dict m => some m.match_id
      | .nondict _ => none)
  | _ => []

/-- `save_match_incremental(match_data, filepath, insert_at_beginning,
ensure_desc_order)` (Hoopscraper.py lines 167-199). Existing data that is
missing/unparseable/not a list is replaced by `[]`; the new record is
inserted at the front or appended; with `ensure_desc_order` the list is
re-sorted before writing (an exception there is caught and reported as
`False` with the file unwritten). Returns the new file state and the
boolean result. -/
def save_match_incremental (match_data : MatchRec) (f : JsonFile)
    (insert_at_beginning ensure_desc_order : Bool) : JsonFile × Bool :=
  let existing_data : List JElem :=
    match f with
    | .list data => data
    | _ => []
  let updated :=
    if insert_at_beginning then .dict match_data :: existing_data
    else existing_data ++ [.dict match_data]
  if ensure_desc_order then
    match sort_matches updated "desc" with
    | .ok sorted => (.list sorted, true)
    | .error _ => (f, false)
  else (.list updated, true)

/-! ### Discovery (`get_match_id_list`) -/

/-- A work item produced by discovery: `{'id': ..., 'stage': ...}`. -/
structure WorkItem where
  id : String
  stage : String
deriving DecidableEq, Repr

/-- One row returned by the
`'.event__match, .event__title, .event__round...'` query, classified the
way the loop classifies it by class name. Texts are the `.strip()`ed
texts the code reads; `none` models an element `find_element` does not
find.

* `roundRow text`: a block row whose class contains `event__round`.
* `titleRow strongText`: a block row whose class contains `event__title`;
  `strongText` is the text of its `div.event__titleBox strong` child.
* `matchRow idAttr static cand`: a match row; `idAttr` is its `id`
  attribute, `static` the text of a row-local
  `div.event__round.event__round--static` child, `cand` the text of the
  first row-local `div[class*='event__round']` child. -/
inductive Row where
  | roundRow (text : String)
  | titleRow (strongText : Option String)
  | matchRow (idAttr : Option String) (static : Option String) (cand : Option String)
deriving DecidableEq, Repr

/-- The listing page as discovery observes it: whether the
`.sportName.basketball` container appears within the timeout, the league
base name and optional playoff context resolved by the header-parsing
prologue (lines 358-389), and the classified rows. -/
structure Page where
  containerPresent : Bool
  leagueBase : String
  playoffsCtx : Option String
  rows : List Row
deriving Repr

/-- The keyword list of `_is_specific` inside `_compose_stage`. -/
def stageKeys : List String :=
  ["final", "semi", "quarter", "round", "group", "phase", "stage", "place"]

/-- `_is_specific(text)` (Hoopscraper.py lines 415-422): falsy text is
not specific; otherwise lower-case, normalise `semi finals` and
`quarter finals`, and require one of the keywords as a substring and a
length under 80. -/
def isSpecificStage : Option String → Bool
  | none => false
  | some s =>
    if s = "" then false
    else
      let t := s.data.map Char.toLower
      let t := replaceSub "semi finals".data "semi-finals".data t
      let t := replaceSub "quarter finals".data "quarter-finals".data t
      (stageKeys.any (fun k => containsSub k.data t)) && decide (s.length < 80)

/-- `_compose_stage(league_base_name, row_stage_text, playoffs_text)`
(Hoopscraper.py lines 414-427). -/
def composeStage (league_base_name : String) (row_stage_text : Option String)
    (playoffs_text : Option String) : String :=
  if isSpecificStage row_stage_text then
    league_base_name ++ " - " ++ pyStrip (row_stage_text.getD "")
  else
    match playoffs_text with
    | some p => if p ≠ "" then p else league_base_name
    | none => league_base_name

/-- Row-local stage lookup inside the `event__match` branch (lines
461-474): the static child's text if truthy, else the first
`event__round`-classed child's text (empty text becomes `None`), else
whatever the static lookup produced. -/
def rowLocalStage (static cand : Option String) : Option String :=
  if truthyOpt static then static
  else
    match cand with
    | some txt => if txt = "" then none else some txt
    | none => static

/-- The row loop of `get_match_id_list` (Hoopscraper.py lines 434-481),
with `current_block_stage` as the accumulator (initially `"N/A"`). -/
def walkRows (league_base : String) (playoffs_ctx : Option String) :
    List Row → String → List WorkItem
  | [], _ => []
  | .roundRow t :: rest, _ => walkRows league_base playoffs_ctx rest t
  | .titleRow st :: rest, _ =>
    walkRows league_base playoffs_ctx rest (st.getD "N/A")
  | .matchRow idAttr static cand :: rest, blk =>
    if truthyOpt idAttr then
      let clean_id := cleanMatchId (idAttr.getD "")
      let rst := rowLocalStage static cand
      let rst := if truthyOpt rst = false ∧ blk ≠ "N/A" then some blk else rst
      let final_stage := composeStage league_base rst playoffs_ctx
      ⟨clean_id, final_stage⟩ :: walkRows league_base playoffs_ctx rest blk
    else walkRows league_base playoffs_ctx rest blk

/-- `get_match_id_list` (Hoopscraper.py lines 352-484): if the
`.sportName.basketball` container never appears within the timeout the
function logs and returns `[]`; otherwise it walks the rows composing
stages. (URL normalisation, show-more clicking and header parsing are
side effects whose results are the `Page` fields.) -/
def get_match_id_list (p : Page) : List WorkItem :=
  if p.containerPresent then walkRows p.leagueBase p.playoffsCtx p.rows "N/A"
  else []

/-! ### The orchestrator
(`scrape_match_with_error_handling` and
`scrape_league_with_incremental_save`) -/

/-- What processing one match during one session does, as reported by the
environment: extraction succeeds with the given extracted field values
(the record is then stamped with the item's id and stage and saved),
fails with an exception caught by the generic `except` (item counted as
failed), or raises `WebDriverException`. -/
inductive Outcome where
  | success (date scraped_at : Option PyVal)
  | fail
  | fatal
deriving DecidableEq, Repr

/-- The environment of one run: whether driver acquisition succeeds in
while-iteration `k`, the listing page, and the per-iteration per-id
processing outcome. -/
structure ScrapeEnv where
  sessionOk : Nat → Bool
  page : Page
  outcome : Nat → String → Outcome

/-- Result of one `scrape_match_with_error_handling` call: an ordinary
return value, or a re-raised `WebDriverException`. -/
inductive ScrapeOutcome where
  | ret (b : Bool)
  | raised
deriving DecidableEq, Repr

/-- `scrape_match_with_error_handling(driver, match_info,
output_filepath, attempt)` (Hoopscraper.py lines 991-1070): on success
the record is stamped with the item's id and stage and saved
incrementally (default positional save); on a generic exception it
returns `False`; on `WebDriverException` it re-raises while
`attempt < max_attempts` and otherwise returns `False`. Returns the new
file state together with the call's outcome. -/
def scrape_match_with_error_handling (out : Outcome) (w : WorkItem)
    (f : JsonFile) (attempt max_attempts : Nat) : JsonFile × ScrapeOutcome :=
  match out with
  | .success dateV scrapedV =>
    let match_data : MatchRec :=
      { match_id := w.id, stage := w.stage, date := dateV, scraped_at := scrapedV }
    let r := save_match_incremental match_data f false false
    (r.1, .ret r.2)
  | .fail => (f, .ret false)
  | .fatal => if attempt < max_attempts then (f, .raised) else (f, .ret false)

/-- The mutable state of the per-item `for` loop: current file state, the
two counters (re-initialised each while-iteration), the list of file
states after each completed per-item save, and the chronological list of
item ids handed to `scrape_match_with_error_handling`. -/
structure LoopState where
  store : JsonFile
  successful_count : Nat
  failed_count : Nat
  trace : List JsonFile
  attempts : List String
deriving DecidableEq, Repr

/-- The `for match_info in matches_to_process` loop (Hoopscraper.py lines
1184-1217) in non-interactive mode (batch pauses disabled). The returned
boolean reports whether a `WebDriverException` escaped the loop. The
caller always passes `attempt = 1` (the call at line 1202 uses the
default). -/
def processItems (env : ScrapeEnv) (round max_attempts : Nat) :
    List WorkItem → LoopState → LoopState × Bool
  | [], st => (st, false)
  | w :: rest, st =>
    let st1 : LoopState := { st with attempts := st.attempts ++ [w.id] }
    let r := scrape_match_with_error_handling (env.outcome round w.id) w st1.store 1 max_attempts
    match r.2 with
    | .ret true =>
      processItems env round max_attempts rest
        { st1 with
          store := r.1
          successful_count := st1.successful_count + 1
          trace := st1.trace ++ [r.1] }
    | .ret false =>
      processItems env round max_attempts rest
        { st1 with store := r.1, failed_count := st1.failed_count + 1 }
    | .raised => ({ st1 with store := r.1 }, true)

/-- How a run ends. -/
inductive EndKind where
  | finished
  | no_matches
  | all_done
  | aborted
  | unexpected_error
deriving DecidableEq, Repr

/-- Observable result of a run: final file state, file states after each
completed save, chronological attempt log, the two counters of the last
while-iteration that ran the loop, the number of while-iterations (each
attempts to acquire a session), the final `global_driver_restarts`, and
how the run ended. -/
structure RunResult where
  store : JsonFile
  trace : List JsonFile
  attempts : List String
  successful_count : Nat
  failed_count : Nat
  session_attempts : Nat
  global_driver_restarts : Nat
  ended : EndKind
deriving DecidableEq, Repr

/-- The `while global_driver_restarts < max_global_restarts` loop of
`scrape_league_with_incremental_save` (Hoopscraper.py lines 1106-1289),
in non-interactive, non-update mode with no test limits. `fuel` is the
number of while-iterations still permitted (`max_global_restarts -
global_driver_restarts`), `round` the current `global_driver_restarts`.

Per iteration: acquire a driver (failure raises `WebDriverException`,
caught at line 1276: increment the counter and retry); discover only when
`round = 0` (an empty listing returns immediately); reload the persisted
ids and filter the listing; `to_process = 0` at `round = 0` returns
immediately ("all already processed"); run the item loop; a
`WebDriverException` from it restarts; otherwise the summary runs and the
loop breaks - except that a completed iteration with an empty
`to_process` (possible only for `round > 0`) divides by zero in the final
`print_progress_bar(0, 0)` call, which the generic `except` at line 1287
turns into a break. -/
def runRounds (env : ScrapeEnv) (max_attempts : Nat) :
    Nat → Nat → Option (List WorkItem) → RunResult → RunResult
  | 0, _, _, acc => { acc with ended := .aborted }
  | fuel + 1, round, listing?, acc =>
    let acc1 := { acc with session_attempts := acc.session_attempts + 1 }
    if env.sessionOk round = true then
      match (if round = 0 then some (get_match_id_list env.page) else listing?) with
      | none => { acc1 with ended := .unexpected_error }
      | some listing =>
        if round = 0 ∧ listing = [] then { acc1 with ended := .no_matches }
        else
          let existing := load_existing_match_ids acc1.store
          let to_process := listing.filter (fun w => !(existing.contains w.id))
          if round = 0 ∧ to_process = [] then { acc1 with ended := .all_done }
          else
            let res := processItems env round max_attempts to_process
              { store := acc1.store, successful_count := 0, failed_count := 0,
                trace := acc1.trace, attempts := acc1.attempts }
            let acc2 := { acc1 with
              store := res.1.store
              trace := res.1.trace
              attempts := res.1.attempts
              successful_count := res.1.successful_count
              failed_count := res.1.failed_count }
            if res.2 then
              runRounds env max_attempts fuel (round + 1) (some listing)
                { acc2 with global_driver_restarts := round + 1 }
            else if to_process = [] then { acc2 with ended := .unexpected_error }
            else { acc2 with ended := .finished }
    else
      runRounds env max_attempts fuel (round + 1) listing?
        { acc1 with global_driver_restarts := round + 1 }

/-- `scrape_league_with_incremental_save` (Hoopscraper.py lines
1072-1289) in non-interactive, non-update mode (no pre-reorder, no
limits): run the restart loop from a fresh counter state over the initial
file state. `max_attempts` and `max_global_restarts` are both
`config.MAX_RECONNECTION_ATTEMPTS` in the source. -/
def scrape_league_with_incremental_save (env : ScrapeEnv)
    (max_attempts max_global_restarts : Nat) (store₀ : JsonFile) : RunResult :=
  runRounds env max_attempts max_global_restarts 0 none
    { store := store₀, trace := [], attempts := [], successful_count := 0,
      failed_count := 0, session_attempts := 0, global_driver_restarts := 0,
      ended := .finished }

/-- `config.MAX_RECONNECTION_ATTEMPTS` (config.py line 25). -/
def MAX_RECONNECTION_ATTEMPTS : Nat := 5

/-! ### Helper lemmas -/

theorem pyEndswith_append_suffix (x : List Char) :
    pyEndswith (x ++ resultsSuffix) resultsSuffix = true := by
  have h : (x ++ resultsSuffix).reverse.take resultsSuffix.length
      = resultsSuffix.reverse := by
    rw [List.reverse_append]
    have hl : resultsSuffix.length = resultsSuffix.reverse.length :=
      (List.length_reverse resultsSuffix).symm
    rw [hl, List.take_left]
  simp [pyEndswith, h]

theorem exists_append_of_pyEndswith {c : List Char}
    (h : pyEndswith c resultsSuffix = true) :
    ∃ x, c = x ++ resultsSuffix := by
  have h1 : c.reverse.take resultsSuffix.length = resultsSuffix.reverse := by
    simpa [pyEndswith] using h
  refine ⟨(c.reverse.drop resultsSuffix.length).reverse, ?_⟩
  have h2 : c.reverse = resultsSuffix.reverse ++ c.reverse.drop resultsSuffix.length := by
    conv_lhs => rw [← List.take_append_drop resultsSuffix.length c.reverse, h1]
  calc c = c.reverse.reverse := (List.reverse_reverse c).symm
    _ = (resultsSuffix.reverse ++ c.reverse.drop resultsSuffix.length).reverse := by rw [← h2]
    _ = (c.reverse.drop resultsSuffix.length).reverse ++ resultsSuffix := by
        rw [List.reverse_append, List.reverse_reverse]

theorem getLast?_append_resultsSuffix (x : List Char) :
    (x ++ resultsSuffix).getLast? = some 's' := by
  rw [← List.head?_reverse, List.reverse_append]
  rfl

theorem rstripSlash_eq_self_of_getLast? {v : List Char}
    (h : v.getLast? ≠ some '/') : rstripSlash v = v := by
  unfold rstripSlash
  cases hv : v.reverse with
  | nil =>
    have : v = [] := by
      have := congrArg List.reverse hv
      simpa using this
    simp [this]
  | cons a t =>
    have ha : a ≠ '/' := by
      intro hcontra
      apply h
      rw [← List.head?_reverse, hv, hcontra]
      rfl
    have hd : List.dropWhile (fun c => decide (c = '/')) (a :: t) = a :: t := by
      rw [List.dropWhile_cons, if_neg (by simpa using ha)]
    rw [hd, ← hv, List.reverse_reverse]

/-! ### Claim C9 -/

/-- C9: URL normalization is idempotent and canonical. For every input
URL (as a character list), `normalize_league_url` produces a string that
ends with `"/results"`, has no trailing slash (its last character is
`'s'`, not `'/'`), and applying `normalize_league_url` twice gives the
same result as applying it once. -/
theorem c9_normalize_url_canonical (u : List Char) :
    pyEndswith (normalize_league_url u) resultsSuffix = true
    ∧ (normalize_league_url u).getLast? ≠ some '/'
    ∧ normalize_league_url (normalize_league_url u) = normalize_league_url u := by
  have hends : pyEndswith (normalize_league_url u) resultsSuffix = true := by
    unfold normalize_league_url
    by_cases h : pyEndswith (rstripSlash u) resultsSuffix = true
    · rw [if_pos h]; exact h
    · rw [if_neg h]; exact pyEndswith_append_suffix _
  have hlast : (normalize_league_url u).getLast? = some 's' := by
    obtain ⟨x, hx⟩ := exists_append_of_pyEndswith hends
    rw [hx]
    exact getLast?_append_resultsSuffix x
  refine ⟨hends, ?_, ?_⟩
  · rw [hlast]; simp
  · have hne : (normalize_league_url u).getLast? ≠ some '/' := by rw [hlast]; simp
    have h1 : rstripSlash (normalize_league_url u) = normalize_league_url u :=
      rstripSlash_eq_self_of_getLast? hne
    generalize hgen : normalize_league_url u = v at hends h1 ⊢
    unfold normalize_league_url
    simp only [h1, hends, if_true]

/-! ### Claim C4 -/

/-- C4: `save_match_incremental` frame property. For every record and
every file state already holding the previously persisted list `prior`,
the default call (as issued by `scrape_match_with_error_handling`:
`insert_at_beginning = ensure_desc_order = False`) rewrites the file to
exactly `prior` followed by the new record — every previously persisted
element is kept, in its original relative position — and reports success;
with `insert_at_beginning` the record is prepended, again leaving `prior`
in order. The result depends only on the record and the current file
contents, so it is unaffected by a failure of the immediately preceding
(unrelated) item, which leaves the file unchanged. A missing file becomes
a one-element list. -/
theorem c4_save_incremental_frame (match_data : MatchRec) (prior : List JElem) :
    save_match_incremental match_data (.list prior) false false
      = (.list (prior ++ [.dict match_data]), true)
    ∧ save_match_incremental match_data (.list prior) true false
      = (.list (.dict match_data :: prior), true)
    ∧ save_match_incremental match_data .missing false false
      = (.list [.dict match_data], true) :=
  ⟨rfl, rfl, rfl⟩

/-! ### Claim C7 -/

/-- Store with `date` timestamps 2024-01-01, 2024-03-01, 2024-02-01 in
that (unsorted) order. -/
def c7store : List JElem :=
  [JElem.dict { match_id := "m1", stage := "s1",
                date := some (PyVal.str "2024-01-01"), scraped_at := none },
   JElem.dict { match_id := "m2", stage := "s2",
                date := some (PyVal.str "2024-03-01"), scraped_at := none },
   JElem.dict { match_id := "m3", stage := "s3",
                date := some (PyVal.str "2024-02-01"), scraped_at := none }]

/-- C7: finalize sort. Invoking `reorder_json_file` with direction
`'desc'` on a store whose records carry timestamps
[2024-01-01, 2024-03-01, 2024-02-01] rewrites the store with the records
in descending timestamp order [2024-03-01, 2024-02-01, 2024-01-01] and
reports success. -/
theorem c7_sort_finalize :
    reorder_json_file (JsonFile.list c7store) "desc"
      = (JsonFile.list [c7store.get ⟨1, by decide⟩, c7store.get ⟨2, by decide⟩,
                        c7store.get ⟨0, by decide⟩], true) := by
  decide

/-- Walking past a match row with a truthy id attribute and no row-local
stage elements: the block stage (when set) becomes the row's stage text. -/
theorem walkRows_match_noLocal (lb : String) (ctx : Option String) (rest : List Row)
    (blk attr : String) (hattr : attr ≠ "") (hblk : blk ≠ "N/A") :
    walkRows lb ctx (Row.matchRow (some attr) none none :: rest) blk
      = ⟨cleanMatchId attr, composeStage lb (some blk) ctx⟩ :: walkRows lb ctx rest blk := by
  simp [walkRows, rowLocalStage, truthyOpt, hattr, hblk]

/-- Walking past a match row with a truthy id attribute and a truthy
row-local static stage text: the row-local text is used, ignoring the
block stage. -/
theorem walkRows_match_local (lb : String) (ctx : Option String) (rest : List Row)
    (blk attr loc : String) (hattr : attr ≠ "") (hloc : loc ≠ "") :
    walkRows lb ctx (Row.matchRow (some attr) (some loc) none :: rest) blk
      = ⟨cleanMatchId attr, composeStage lb (some loc) ctx⟩ :: walkRows lb ctx rest blk := by
  simp [walkRows, rowLocalStage, truthyOpt, hattr, hloc]

/-! ### Claim C6 -/

/-- A listing whose page header resolves to league base `"NBA"` with no
page-level playoff context, containing a stage-header row with text
`"Playoffs"` followed by three match rows with no row-local stage label. -/
def c6page : Page :=
  { containerPresent := true, leagueBase := "NBA", playoffsCtx := none,
    rows := [Row.roundRow "Playoffs",
             Row.matchRow (some "g_1_aaa") none none,
             Row.matchRow (some "g_1_bbb") none none,
             Row.matchRow (some "g_1_ccc") none none] }

/-- C6 counterexample: on `c6page` — a stage header `"Playoffs"`
preceding three rows with no row-local label — all three produced
WorkItems get stage `"NBA"`, the bare league base: none of them has a
stage derived from `"Playoffs"` (the header text does not even occur in
it as a substring). `_compose_stage` discards the inherited header text
because `"playoffs"` contains none of its specificity keywords, and with
no page-level playoff context it falls back to the league base. -/
theorem c6_stage_composition_cex :
    get_match_id_list c6page
      = [⟨"aaa", "NBA"⟩, ⟨"bbb", "NBA"⟩, ⟨"ccc", "NBA"⟩]
    ∧ ∀ w ∈ get_match_id_list c6page,
        containsSub "Playoffs".data w.stage.data = false := by
  decide

/-- The row list of the amended claim: a stage-header row with text `h`
followed by two rows with no row-local label and one with row-local
static label `"Final"`. -/
def c6rows (h : String) : List Row :=
  [Row.roundRow h,
   Row.matchRow (some "g_1_aaa") none none,
   Row.matchRow (some "g_1_bbb") none none,
   Row.matchRow (some "g_1_ccc") (some "Final") none]

/-- The page of the amended claim. -/
def c6pageOf (lb : String) (ctx : Option String) (h : String) : Page :=
  { containerPresent := true, leagueBase := lb, playoffsCtx := ctx, rows := c6rows h }

/-- C6 amended: the stage-header text reaches the rows below it only when
`_is_specific` accepts it (it contains one of the keywords
final/semi/quarter/round/group/phase/stage/place and is under 80
characters). For any such header text `h`, rows without a row-local label
get stage `league_base ++ " - " ++ h.strip()`, and a row-local (truthy)
label — here `"Final"` — takes precedence over the header for its row.
For the header text `"Playoffs"` itself, which `_is_specific` rejects,
the composed stage is instead the page-level playoff context when that is
truthy, and the bare league base otherwise. -/
theorem c6_stage_composition (lb h p : String) (ctx : Option String)
    (hspec : isSpecificStage (some h) = true) :
    get_match_id_list (c6pageOf lb ctx h)
      = [⟨"aaa", lb ++ " - " ++ pyStrip h⟩,
         ⟨"bbb", lb ++ " - " ++ pyStrip h⟩,
         ⟨"ccc", lb ++ " - " ++ pyStrip "Final"⟩]
    ∧ (p ≠ "" → composeStage lb (some "Playoffs") (some p) = p)
    ∧ composeStage lb (some "Playoffs") none = lb := by
  have hna : h ≠ "N/A" := by
    intro hcontra
    rw [hcontra] at hspec
    exact absurd hspec (by decide)
  have hFinal : isSpecificStage (some "Final") = true := by decide
  have hPlayoffs : isSpecificStage (some "Playoffs") = false := by decide
  refine ⟨?_, ?_, ?_⟩
  · show walkRows lb ctx (c6rows h) "N/A" = _
    unfold c6rows
    rw [show walkRows lb ctx (Row.roundRow h :: _) "N/A" = walkRows lb ctx _ h from rfl]
    rw [walkRows_match_noLocal lb ctx _ h "g_1_aaa" (by decide) hna]
    rw [walkRows_match_noLocal lb ctx _ h "g_1_bbb" (by decide) hna]
    rw [walkRows_match_local lb ctx _ h "g_1_ccc" "Final" (by decide) (by decide)]
    rw [show walkRows lb ctx [] h = [] from rfl]
    simp [composeStage, hspec, hFinal, cleanMatchId]
    exact ⟨by decide, by decide, by decide⟩
  · intro hp
    simp [composeStage, hPlayoffs, hp]
  · simp [composeStage, hPlayoffs]

/-- C6 witness: the amended theorem applied at league base `"NBA"`,
header `"Final Round"` (which `_is_specific` accepts), playoff-context
text `"NBA - Playoffs"`, and no page context. -/
theorem c6_stage_composition_witness :
    get_match_id_list (c6pageOf "NBA" none "Final Round")
      = [⟨"aaa", "NBA" ++ " - " ++ pyStrip "Final Round"⟩,
         ⟨"bbb", "NBA" ++ " - " ++ pyStrip "Final Round"⟩,
         ⟨"ccc", "NBA" ++ " - " ++ pyStrip "Final"⟩]
    ∧ ("NBA - Playoffs" ≠ "" → composeStage "NBA" (some "Playoffs") (some "NBA - Playoffs") = "NBA - Playoffs")
    ∧ composeStage "NBA" (some "Playoffs") none = "NBA" :=
  c6_stage_composition "NBA" "Final Round" "NBA - Playoffs" none (by decide)

/-- A truthy non-dict JSON element (a string, nonzero number, nonempty
list...): the only kind of element on which `_parse_match_datetime`
raises. -/
def truthyNonDict : JElem → Bool
  | .nondict true => true
  | _ => false

theorem parseNum2_bounds {lo hi v : Nat} {cs rest : List Char}
    (h : parseNum2 lo hi cs = some (v, rest)) : lo ≤ v ∧ v ≤ hi := by
  match cs with
  | [] => simp [parseNum2] at h
  | [c] =>
    simp only [parseNum2] at h
    split at h
    · split at h
      · rename_i hb
        simp only [Option.some.injEq, Prod.mk.injEq] at h
        omega
      · simp at h
    · simp at h
  | c1 :: c2 :: rest' =>
    simp only [parseNum2] at h
    split at h
    · split at h
      · split at h
        · rename_i hb
          simp only [Option.some.injEq, Prod.mk.injEq] at h
          omega
        · simp at h
      · split at h
        · rename_i hb
          simp only [Option.some.injEq, Prod.mk.injEq] at h
          omega
        · simp at h
    · simp at h

theorem mkDateTime_min {y mo d h mi : Nat} {dt : PyDateTime}
    (hmk : mkDateTime y mo d h mi = some dt) (hmo : 1 ≤ mo) (hd : 1 ≤ d) :
    pyDateTimeLe datetimeMin dt := by
  unfold mkDateTime at hmk
  split at hmk
  · rename_i hcond
    cases hmk
    simp only [datetimeMin, pyDateTimeLe]
    omega
  · simp at hmk

theorem strptimeDMYHM_min {cs : List Char} {dt : PyDateTime}
    (h : strptimeDMYHM cs = some dt) : pyDateTimeLe datetimeMin dt := by
  simp only [strptimeDMYHM, Option.bind_eq_some, bind, Option.pure_def] at h
  obtain ⟨⟨d, cs1⟩, hd, ⟨cs2, hc2, ⟨⟨mo, cs3⟩, hmo, ⟨cs4, hc4,
    ⟨⟨y, cs5⟩, hy, ⟨cs6, hc6, ⟨⟨hh, cs7⟩, hhh, ⟨cs8, hc8,
    ⟨⟨mi, cs9⟩, hmi, hfin⟩⟩⟩⟩⟩⟩⟩⟩⟩ := h
  split at hfin
  · exact mkDateTime_min hfin (parseNum2_bounds hmo).1 (parseNum2_bounds hd).1
  · simp at hfin

theorem strptimeDMY_min {cs : List Char} {dt : PyDateTime}
    (h : strptimeDMY cs = some dt) : pyDateTimeLe datetimeMin dt := by
  simp only [strptimeDMY, Option.bind_eq_some, bind, Option.pure_def] at h
  obtain ⟨⟨d, cs1⟩, hd, ⟨cs2, hc2, ⟨⟨mo, cs3⟩, hmo, ⟨cs4, hc4,
    ⟨⟨y, cs5⟩, hy, hfin⟩⟩⟩⟩⟩ := h
  split at hfin
  · exact mkDateTime_min hfin (parseNum2_bounds hmo).1 (parseNum2_bounds hd).1
  · simp at hfin

theorem strptimeYMDHM_min {cs : List Char} {dt : PyDateTime}
    (h : strptimeYMDHM cs = some dt) : pyDateTimeLe datetimeMin dt := by
  simp only [strptimeYMDHM, Option.bind_eq_some, bind, Option.pure_def] at h
  obtain ⟨⟨y, cs1⟩, hy, ⟨cs2, hc2, ⟨⟨mo, cs3⟩, hmo, ⟨cs4, hc4,
    ⟨⟨d, cs5⟩, hd, ⟨cs6, hc6, ⟨⟨hh, cs7⟩, hhh, ⟨cs8, hc8,
    ⟨⟨mi, cs9⟩, hmi, hfin⟩⟩⟩⟩⟩⟩⟩⟩⟩ := h
  split at hfin
  · exact mkDateTime_min hfin (parseNum2_bounds hmo).1 (parseNum2_bounds hd).1
  · simp at hfin

theorem strptimeYMD_min {cs : List Char} {dt : PyDateTime}
    (h : strptimeYMD cs = some dt) : pyDateTimeLe datetimeMin dt := by
  simp only [strptimeYMD, Option.bind_eq_some, bind, Option.pure_def] at h
  obtain ⟨⟨y, cs1⟩, hy, ⟨cs2, hc2, ⟨⟨mo, cs3⟩, hmo, ⟨cs4, hc4,
    ⟨⟨d, cs5⟩, hd, hfin⟩⟩⟩⟩⟩ := h
  split at hfin
  · exact mkDateTime_min hfin (parseNum2_bounds hmo).1 (parseNum2_bounds hd).1
  · simp at hfin

theorem orElse_eq_some {a b : Option PyDateTime} {dt : PyDateTime}
    (h : (a <|> b) = some dt) : a = some dt ∨ b = some dt := by
  cases a with
  | none => right; simpa using h
  | some x => left; simpa using h

theorem tryDateFormats_min {s : String} {dt : PyDateTime}
    (h : tryDateFormats s = some dt) : pyDateTimeLe datetimeMin dt := by
  unfold tryDateFormats at h
  rcases orElse_eq_some h with h1 | h'
  · exact strptimeDMYHM_min h1
  rcases orElse_eq_some h' with h2 | h''
  · exact strptimeDMY_min h2
  rcases orElse_eq_some h'' with h3 | h4
  · exact strptimeYMDHM_min h3
  · exact strptimeYMD_min h4

theorem tryScrapedFormats_min {s : String} {dt : PyDateTime}
    (h : tryScrapedFormats s = some dt) : pyDateTimeLe datetimeMin dt := by
  unfold tryScrapedFormats at h
  rcases orElse_eq_some h with h1 | h2
  · exact strptimeYMD_min h1
  · exact strptimeYMDHM_min h2

theorem parseDictDatetime_min (dv sv : Option PyVal) :
    pyDateTimeLe datetimeMin (parseDictDatetime dv sv) := by
  unfold parseDictDatetime
  cases h1 : (pyFieldStr dv).bind tryDateFormats with
  | some d =>
    obtain ⟨s, _, hs⟩ := Option.bind_eq_some.mp h1
    simpa using tryDateFormats_min hs
  | none =>
    cases h2 : (pyFieldStr sv).bind tryScrapedFormats with
    | some d =>
      obtain ⟨s, _, hs⟩ := Option.bind_eq_some.mp h2
      simpa using tryScrapedFormats_min hs
    | none => simp [datetimeMin, pyDateTimeLe]

theorem keyOf_min (e : JElem) : pyDateTimeLe datetimeMin (keyOf e) := by
  cases e with
  | dict r => simpa [keyOf, parse_match_datetime] using parseDictDatetime_min r.date r.scraped_at
  | nondict t =>
    cases t with
    | true => simp [keyOf, parse_match_datetime, datetimeMin, pyDateTimeLe]
    | false => simpa [keyOf, parse_match_datetime] using parseDictDatetime_min none none

theorem parse_ok_of_not_truthyNonDict {e : JElem} (h : truthyNonDict e = false) :
    ∃ d, parse_match_datetime e = .ok d := by
  cases e with
  | dict r => exact ⟨_, rfl⟩
  | nondict t =>
    cases t with
    | true => simp [truthyNonDict] at h
    | false => exact ⟨_, rfl⟩

theorem computeKeys_ok_mem {data : List JElem} {keyed : List (JElem × PyDateTime)}
    (h : computeKeys data = .ok keyed) :
    ∀ p ∈ keyed, parse_match_datetime p.1 = .ok p.2 := by
  induction data generalizing keyed with
  | nil =>
    simp only [computeKeys, Except.ok.injEq] at h
    subst h
    intro p hp
    simp at hp
  | cons e rest ih =>
    simp only [computeKeys] at h
    split at h
    · simp at h
    · rename_i d hd
      split at h
      · simp at h
      · rename_i ks hks
        simp only [Except.ok.injEq] at h
        subst h
        intro p hp
        rcases List.mem_cons.mp hp with hpe | hpk
        · subst hpe; simpa using hd
        · exact ih hks p hpk

theorem computeKeys_total {data : List JElem}
    (h : ∀ e ∈ data, truthyNonDict e = false) :
    ∃ keyed, computeKeys data = .ok keyed := by
  induction data with
  | nil => exact ⟨[], rfl⟩
  | cons e rest ih =>
    obtain ⟨d, hd⟩ := parse_ok_of_not_truthyNonDict (h e (List.mem_cons_self e rest))
    obtain ⟨ks, hks⟩ := ih (fun x hx => h x (List.mem_cons_of_mem e hx))
    exact ⟨(e, d) :: ks, by simp [computeKeys, hd, hks]⟩

theorem sort_matches_desc_sorted {data out : List JElem}
    (h : sort_matches data "desc" = .ok out) :
    out.Pairwise (fun a b => pyDateTimeLe (keyOf b) (keyOf a)) := by
  unfold sort_matches at h
  cases hk : computeKeys data with
  | error u => rw [hk] at h; simp at h
  | ok keyed =>
    rw [hk] at h
    simp only [beq_self_eq_true, if_true, Except.ok.injEq] at h
    have hsorted : (List.insertionSort descKeyRel keyed).Pairwise descKeyRel :=
      List.sorted_insertionSort descKeyRel keyed
    have hmem : ∀ p ∈ List.insertionSort descKeyRel keyed,
        parse_match_datetime p.1 = .ok p.2 :=
      fun p hp => computeKeys_ok_mem hk p ((List.mem_insertionSort descKeyRel).mp hp)
    rw [← h, List.pairwise_map]
    refine List.Pairwise.imp_of_mem ?_ hsorted
    intro a b ha hb hr
    have ka : keyOf a.1 = a.2 := by simp [keyOf, hmem a ha]
    have kb : keyOf b.1 = b.2 := by simp [keyOf, hmem b hb]
    rw [ka, kb]
    exact hr

/-! ### Claim C10 -/

/-- C10 counterexample: `_parse_match_datetime` is not total on every
input. Applied to a truthy non-dict value (a nonempty string, a nonzero
number, a nonempty list — e.g. the element of the JSON file `["x"]`) it
raises `AttributeError` at `(match or {}).get('date')`, so `_sort_matches`
on a list containing such an element raises as well; `reorder_json_file`
then catches the exception and reports failure with the file unchanged. -/
theorem c10_parse_total_cex :
    parse_match_datetime (JElem.nondict true) = .error ()
    ∧ sort_matches [JElem.nondict true] "desc" = .error ()
    ∧ reorder_json_file (JsonFile.list [JElem.nondict true]) "desc"
        = (JsonFile.list [JElem.nondict true], false) := by
  refine ⟨rfl, rfl, rfl⟩

/-- C10 amended: date parsing is total with the `datetime.min` fallback
on `None`, falsy, and dict inputs (the inputs the scraper itself
produces), but not on truthy non-dict inputs. Precisely:
(1) on every non-(truthy non-dict) element the parse returns a datetime;
(2) for a dict, when no format parses the `date` string and no format
parses the `scraped_at` string, the result is `datetime.min`;
(3) `datetime.min` is a lower bound of every element's sort key;
(4) `_sort_matches` never raises on a list of such elements; and
(5) a successful descending sort is sorted by descending key, so records
with unparseable dates (key `datetime.min`) are placed at the end: every
element following a `datetime.min`-keyed element also has key
`datetime.min`. -/
theorem c10_parse_total :
    (∀ e : JElem, truthyNonDict e = false → ∃ d, parse_match_datetime e = .ok d)
    ∧ (∀ dv sv : Option PyVal, (pyFieldStr dv).bind tryDateFormats = none →
        (pyFieldStr sv).bind tryScrapedFormats = none →
        parseDictDatetime dv sv = datetimeMin)
    ∧ (∀ e : JElem, pyDateTimeLe datetimeMin (keyOf e))
    ∧ (∀ data : List JElem, (∀ e ∈ data, truthyNonDict e = false) →
        ∃ out, sort_matches data "desc" = .ok out)
    ∧ (∀ (data out : List JElem), sort_matches data "desc" = .ok out →
        out.Pairwise (fun a b => pyDateTimeLe (keyOf b) (keyOf a))
        ∧ out.Pairwise (fun a b => keyOf a = datetimeMin → keyOf b = datetimeMin)) := by
  refine ⟨fun e h => parse_ok_of_not_truthyNonDict h, ?_, keyOf_min, ?_, ?_⟩
  · intro dv sv h1 h2
    unfold parseDictDatetime
    rw [h1, h2]
    rfl
  · intro data h
    obtain ⟨keyed, hk⟩ := computeKeys_total h
    refine ⟨(List.insertionSort descKeyRel keyed).map Prod.fst, ?_⟩
    simp [sort_matches, hk]
  · intro data out h
    have hs := sort_matches_desc_sorted h
    refine ⟨hs, ?_⟩
    refine hs.imp ?_
    intro a b hr hmin
    exact pyDateTimeLe_antisymm (hmin ▸ hr) (keyOf_min b)

/-- C10 witness: the amended theorem applied at `None` (parse succeeds),
at a dict whose `date` is a non-string and whose `scraped_at` matches no
format (fallback to `datetime.min`), and at a one-element dict list
(sorting succeeds). -/
theorem c10_parse_total_witness :
    (∃ d, parse_match_datetime (JElem.nondict false) = .ok d)
    ∧ parseDictDatetime (some (PyVal.other true)) (some (PyVal.str "oops")) = datetimeMin
    ∧ (∃ out, sort_matches [JElem.dict ⟨"m", "s", none, none⟩] "desc" = .ok out) :=
  ⟨c10_parse_total.1 _ (by decide),
   c10_parse_total.2.1 _ _ (by decide) (by decide),
   c10_parse_total.2.2.2.1 _ (by decide)⟩

theorem runRounds_always_fatal (env : ScrapeEnv) (ma : Nat)
    (hsess : ∀ k, env.sessionOk k = false) :
    ∀ (fuel round : Nat) (listing? : Option (List WorkItem)) (acc : RunResult),
      acc.global_driver_restarts = round →
      (runRounds env ma fuel round listing? acc).ended = .aborted
      ∧ (runRounds env ma fuel round listing? acc).session_attempts
          = acc.session_attempts + fuel
      ∧ (runRounds env ma fuel round listing? acc).global_driver_restarts = round + fuel
      ∧ (runRounds env ma fuel round listing? acc).store = acc.store
      ∧ (runRounds env ma fuel round listing? acc).trace = acc.trace
      ∧ (runRounds env ma fuel round listing? acc).attempts = acc.attempts
      ∧ (runRounds env ma fuel round listing? acc).successful_count = acc.successful_count
      ∧ (runRounds env ma fuel round listing? acc).failed_count = acc.failed_count := by
  intro fuel
  induction fuel with
  | zero =>
    intro round listing? acc hacc
    refine ⟨rfl, by simp [runRounds], by simp [runRounds, hacc], rfl, rfl, rfl, rfl, rfl⟩
  | succ f ih =>
    intro round listing? acc hacc
    have hstep : runRounds env ma (f + 1) round listing? acc
        = runRounds env ma f (round + 1) listing?
            { acc with
                session_attempts := acc.session_attempts + 1
                global_driver_restarts := round + 1 } := by
      simp only [runRounds, hsess round]
      rfl
    rw [hstep]
    obtain ⟨h1, h2, h3, h4, h5, h6, h7, h8⟩ := ih (round + 1) listing?
      { acc with
          session_attempts := acc.session_attempts + 1
          global_driver_restarts := round + 1 } rfl
    dsimp only at h2 h3
    refine ⟨h1, ?_, ?_, h4, h5, h6, h7, h8⟩
    · rw [h2]; omega
    · rw [h3]; omega

/-! ### Claim C3 -/

/-- C3: restart bound. If every attempt to create/use the remote session
raises a `WebDriverException` (`sessionOk` is always false), the
orchestrator performs exactly `max_global_restarts` while-iterations —
each one a session attempt counted by `global_driver_restarts`, which
ends at exactly `max_global_restarts` — and then terminates in the
aborted state, with the store untouched and no record ever written
(empty save trace, zero counters). -/
theorem c3_restart_bound (env : ScrapeEnv) (ma mgr : Nat) (store₀ : JsonFile)
    (hsess : ∀ k, env.sessionOk k = false) :
    (scrape_league_with_incremental_save env ma mgr store₀).ended = .aborted
    ∧ (scrape_league_with_incremental_save env ma mgr store₀).session_attempts = mgr
    ∧ (scrape_league_with_incremental_save env ma mgr store₀).global_driver_restarts = mgr
    ∧ (scrape_league_with_incremental_save env ma mgr store₀).store = store₀
    ∧ (scrape_league_with_incremental_save env ma mgr store₀).trace = []
    ∧ (scrape_league_with_incremental_save env ma mgr store₀).successful_count = 0
    ∧ (scrape_league_with_incremental_save env ma mgr store₀).failed_count = 0 := by
  obtain ⟨h1, h2, h3, h4, h5, h6, h7, h8⟩ :=
    runRounds_always_fatal env ma hsess mgr 0 none
      { store := store₀, trace := [], attempts := [], successful_count := 0,
        failed_count := 0, session_attempts := 0, global_driver_restarts := 0,
        ended := .finished } rfl
  exact ⟨h1, by simpa using h2, by simpa using h3, h4, h5, h7, h8⟩

/-- Environment whose sessions always fail fatally. -/
def c3env : ScrapeEnv :=
  { sessionOk := fun _ => false,
    page := { containerPresent := true, leagueBase := "L", playoffsCtx := none, rows := [] },
    outcome := fun _ _ => Outcome.fail }

/-- C3 witness: the restart-bound theorem at the always-fatal environment
with `config.MAX_RECONNECTION_ATTEMPTS` (= 5) for both bounds and a
missing output file: aborted after exactly 5 session attempts, store
still missing, nothing written. -/
theorem c3_restart_bound_witness :
    (scrape_league_with_incremental_save c3env MAX_RECONNECTION_ATTEMPTS
        MAX_RECONNECTION_ATTEMPTS JsonFile.missing).ended = .aborted
    ∧ (scrape_league_with_incremental_save c3env MAX_RECONNECTION_ATTEMPTS
        MAX_RECONNECTION_ATTEMPTS JsonFile.missing).session_attempts
        = MAX_RECONNECTION_ATTEMPTS
    ∧ (scrape_league_with_incremental_save c3env MAX_RECONNECTION_ATTEMPTS
        MAX_RECONNECTION_ATTEMPTS JsonFile.missing).global_driver_restarts
        = MAX_RECONNECTION_ATTEMPTS
    ∧ (scrape_league_with_incremental_save c3env MAX_RECONNECTION_ATTEMPTS
        MAX_RECONNECTION_ATTEMPTS JsonFile.missing).store = JsonFile.missing
    ∧ (scrape_league_with_incremental_save c3env MAX_RECONNECTION_ATTEMPTS
        MAX_RECONNECTION_ATTEMPTS JsonFile.missing).trace = []
    ∧ (scrape_league_with_incremental_save c3env MAX_RECONNECTION_ATTEMPTS
        MAX_RECONNECTION_ATTEMPTS JsonFile.missing).successful_count = 0
    ∧ (scrape_league_with_incremental_save c3env MAX_RECONNECTION_ATTEMPTS
        MAX_RECONNECTION_ATTEMPTS JsonFile.missing).failed_count = 0 :=
  c3_restart_bound c3env MAX_RECONNECTION_ATTEMPTS MAX_RECONNECTION_ATTEMPTS
    JsonFile.missing (fun _ => rfl)

/-! ### Claim C8 -/

/-- C8: discovery soft failure. If the `.sportName.basketball` listing
container never appears within the timeout, `get_match_id_list` returns
the empty list without raising, and the orchestrator treats the empty
listing as "nothing to do": the first while-iteration logs and returns
(`no_matches`), a normal early end — not the aborted state — with the
store untouched and nothing processed. -/
theorem c8_discovery_soft_failure (env : ScrapeEnv) (ma mgr : Nat) (store₀ : JsonFile)
    (hmgr : 0 < mgr) (hsess : env.sessionOk 0 = true)
    (hcont : env.page.containerPresent = false) :
    get_match_id_list env.page = []
    ∧ (scrape_league_with_incremental_save env ma mgr store₀).ended = .no_matches
    ∧ (scrape_league_with_incremental_save env ma mgr store₀).ended ≠ .aborted
    ∧ (scrape_league_with_incremental_save env ma mgr store₀).store = store₀
    ∧ (scrape_league_with_incremental_save env ma mgr store₀).trace = []
    ∧ (scrape_league_with_incremental_save env ma mgr store₀).successful_count = 0
    ∧ (scrape_league_with_incremental_save env ma mgr store₀).failed_count = 0 := by
  have hlist : get_match_id_list env.page = [] := by
    simp [get_match_id_list, hcont]
  obtain ⟨f, rfl⟩ : ∃ f, mgr = f + 1 := ⟨mgr - 1, by omega⟩
  have hrun : scrape_league_with_incremental_save env ma (f + 1) store₀
      = { store := store₀, trace := [], attempts := [], successful_count := 0,
          failed_count := 0, session_attempts := 1, global_driver_restarts := 0,
          ended := .no_matches } := by
    unfold scrape_league_with_incremental_save
    simp only [runRounds]
    rw [if_pos hsess]
    simp only [if_true, true_and]
    rw [if_pos hlist]
  rw [hrun]
  exact ⟨hlist, rfl, by simp, rfl, rfl, rfl, rfl⟩

/-- Environment with a session that works but a listing container that
never loads. -/
def c8env : ScrapeEnv :=
  { sessionOk := fun _ => true,
    page := { containerPresent := false, leagueBase := "L", playoffsCtx := none,
              rows := [Row.matchRow (some "g_1_x") none none] },
    outcome := fun _ _ => Outcome.success none none }

/-- C8 witness: the soft-failure theorem at `c8env` with the config
bounds and a missing output file. -/
theorem c8_discovery_soft_failure_witness :
    get_match_id_list c8env.page = []
    ∧ (scrape_league_with_incremental_save c8env MAX_RECONNECTION_ATTEMPTS
        MAX_RECONNECTION_ATTEMPTS JsonFile.missing).ended = .no_matches
    ∧ (scrape_league_with_incremental_save c8env MAX_RECONNECTION_ATTEMPTS
        MAX_RECONNECTION_ATTEMPTS JsonFile.missing).ended ≠ .aborted
    ∧ (scrape_league_with_incremental_save c8env MAX_RECONNECTION_ATTEMPTS
        MAX_RECONNECTION_ATTEMPTS JsonFile.missing).store = JsonFile.missing
    ∧ (scrape_league_with_incremental_save c8env MAX_RECONNECTION_ATTEMPTS
        MAX_RECONNECTION_ATTEMPTS JsonFile.missing).trace = []
    ∧ (scrape_league_with_incremental_save c8env MAX_RECONNECTION_ATTEMPTS
        MAX_RECONNECTION_ATTEMPTS JsonFile.missing).successful_count = 0
    ∧ (scrape_league_with_incremental_save c8env MAX_RECONNECTION_ATTEMPTS
        MAX_RECONNECTION_ATTEMPTS JsonFile.missing).failed_count = 0 :=
  c8_discovery_soft_failure c8env MAX_RECONNECTION_ATTEMPTS
    MAX_RECONNECTION_ATTEMPTS JsonFile.missing (by decide) rfl rfl

/-! ### Claim C5 -/

/-- C5: resume idempotence. Running the orchestrator against a listing
every one of whose discovered ids is already present in the store
(and which is nonempty, so the run does not end at the empty-listing
check) ends at the `to_process == 0` early return of the first
while-iteration: the store is unchanged, no save ever happens (empty
trace), no item is ever attempted, and the run reports zero processed
items (both counters zero). -/
theorem c5_resume_idempotent (env : ScrapeEnv) (ma mgr : Nat) (store₀ : JsonFile)
    (hmgr : 0 < mgr) (hsess : env.sessionOk 0 = true)
    (hne : get_match_id_list env.page ≠ [])
    (hall : ∀ w ∈ get_match_id_list env.page,
      w.id ∈ load_existing_match_ids store₀) :
    (scrape_league_with_incremental_save env ma mgr store₀).ended = .all_done
    ∧ (scrape_league_with_incremental_save env ma mgr store₀).store = store₀
    ∧ (scrape_league_with_incremental_save env ma mgr store₀).trace = []
    ∧ (scrape_league_with_incremental_save env ma mgr store₀).attempts = []
    ∧ (scrape_league_with_incremental_save env ma mgr store₀).successful_count = 0
    ∧ (scrape_league_with_incremental_save env ma mgr store₀).failed_count = 0 := by
  have hfilter : (get_match_id_list env.page).filter
      (fun w => !((load_existing_match_ids store₀).contains w.id)) = [] := by
    rw [List.filter_eq_nil_iff]
    intro w hw
    have hmem : (load_existing_match_ids store₀).contains w.id = true := by
      simp only [List.contains]
      exact List.elem_iff.mpr (hall w hw)
    simp only [hmem, Bool.not_true, Bool.false_eq_true, not_false_eq_true]
  obtain ⟨f, rfl⟩ : ∃ f, mgr = f + 1 := ⟨mgr - 1, by omega⟩
  have hrun : scrape_league_with_incremental_save env ma (f + 1) store₀
      = { store := store₀, trace := [], attempts := [], successful_count := 0,
          failed_count := 0, session_attempts := 1, global_driver_restarts := 0,
          ended := .all_done } := by
    unfold scrape_league_with_incremental_save
    simp only [runRounds]
    rw [if_pos hsess]
    simp only [if_true, true_and]
    rw [if_neg hne, hfilter, if_pos rfl]
  rw [hrun]
  exact ⟨rfl, rfl, rfl, rfl, rfl, rfl⟩

/-- Environment whose single discovered item is already persisted. -/
def c5env : ScrapeEnv :=
  { sessionOk := fun _ => true,
    page := { containerPresent := true, leagueBase := "L", playoffsCtx := none,
              rows := [Row.matchRow (some "g_1_x") none none] },
    outcome := fun _ _ => Outcome.success none none }

/-- The store already holding the single discovered id `"x"`. -/
def c5store : JsonFile :=
  JsonFile.list [JElem.dict { match_id := "x", stage := "L", date := none, scraped_at := none }]

/-- C5 witness: the resume-idempotence theorem at `c5env`/`c5store` with
the config bounds: the run ends early as `all_done`, the store equals the
initial store, and zero items are processed. -/
theorem c5_resume_idempotent_witness :
    (scrape_league_with_incremental_save c5env MAX_RECONNECTION_ATTEMPTS
        MAX_RECONNECTION_ATTEMPTS c5store).ended = .all_done
    ∧ (scrape_league_with_incremental_save c5env MAX_RECONNECTION_ATTEMPTS
        MAX_RECONNECTION_ATTEMPTS c5store).store = c5store
    ∧ (scrape_league_with_incremental_save c5env MAX_RECONNECTION_ATTEMPTS
        MAX_RECONNECTION_ATTEMPTS c5store).trace = []
    ∧ (scrape_league_with_incremental_save c5env MAX_RECONNECTION_ATTEMPTS
        MAX_RECONNECTION_ATTEMPTS c5store).attempts = []
    ∧ (scrape_league_with_incremental_save c5env MAX_RECONNECTION_ATTEMPTS
        MAX_RECONNECTION_ATTEMPTS c5store).successful_count = 0
    ∧ (scrape_league_with_incremental_save c5env MAX_RECONNECTION_ATTEMPTS
        MAX_RECONNECTION_ATTEMPTS c5store).failed_count = 0 :=
  c5_resume_idempotent c5env MAX_RECONNECTION_ATTEMPTS MAX_RECONNECTION_ATTEMPTS
    c5store (by decide) rfl (by decide) (by decide)

theorem load_ids_save (md : MatchRec) (f : JsonFile) :
    load_existing_match_ids (save_match_incremental md f false false).1
      = load_existing_match_ids f ++ [md.match_id] := by
  cases f <;> simp [save_match_incremental, load_existing_match_ids, List.filterMap_append]

theorem save_snd (md : MatchRec) (f : JsonFile) :
    (save_match_incremental md f false false).2 = true := by
  cases f <;> rfl

theorem processItems_nodup (env : ScrapeEnv) (round ma : Nat) :
    ∀ (items : List WorkItem) (st : LoopState),
      (load_existing_match_ids st.store).Nodup →
      (∀ g ∈ st.trace, (load_existing_match_ids g).Nodup) →
      (items.map WorkItem.id).Nodup →
      (∀ w ∈ items, w.id ∉ load_existing_match_ids st.store) →
      (load_existing_match_ids (processItems env round ma items st).1.store).Nodup
      ∧ ∀ g ∈ (processItems env round ma items st).1.trace,
          (load_existing_match_ids g).Nodup := by
  intro items
  induction items with
  | nil =>
    intro st h1 h2 _ _
    exact ⟨h1, h2⟩
  | cons w rest ih =>
    intro st h1 h2 h3 h4
    have h3rest : (rest.map WorkItem.id).Nodup := (List.nodup_cons.mp h3).2
    have h3w : w.id ∉ rest.map WorkItem.id := (List.nodup_cons.mp h3).1
    have h4w : w.id ∉ load_existing_match_ids st.store := h4 w (List.mem_cons_self w rest)
    cases ho : env.outcome round w.id with
    | success dv sv =>
      have hids : load_existing_match_ids
          (save_match_incremental ⟨w.id, w.stage, dv, sv⟩ st.store false false).1
          = load_existing_match_ids st.store ++ [w.id] := load_ids_save _ _
      simp only [processItems, scrape_match_with_error_handling, ho, save_snd]
      apply ih
      · dsimp only
        rw [hids]
        simp only [List.nodup_append, List.nodup_cons, List.nodup_nil,
          List.disjoint_singleton]
        exact ⟨h1, ⟨List.not_mem_nil w.id, trivial⟩, h4w⟩
      · dsimp only
        intro g hg
        rcases List.mem_append.mp hg with hg1 | hg2
        · exact h2 g hg1
        · have : g = (save_match_incremental ⟨w.id, w.stage, dv, sv⟩ st.store false false).1 := by
            simpa using hg2
          rw [this, hids]
          simp only [List.nodup_append, List.nodup_cons, List.nodup_nil,
            List.disjoint_singleton]
          exact ⟨h1, ⟨List.not_mem_nil w.id, trivial⟩, h4w⟩
      · exact h3rest
      · dsimp only
        intro w' hw'
        rw [hids]
        simp only [List.mem_append, List.mem_singleton]
        rintro (hmem | heq)
        · exact h4 w' (List.mem_cons_of_mem w hw') hmem
        · exact h3w (heq ▸ List.mem_map_of_mem WorkItem.id hw')
    | fail =>
      simp only [processItems, scrape_match_with_error_handling, ho]
      exact ih _ h1 h2 h3rest (fun w' hw' => h4 w' (List.mem_cons_of_mem w hw'))
    | fatal =>
      by_cases hma : 1 < ma
      · simp only [processItems, scrape_match_with_error_handling, ho, if_pos hma]
        exact ⟨h1, h2⟩
      · simp only [processItems, scrape_match_with_error_handling, ho, if_neg hma]
        exact ih _ h1 h2 h3rest (fun w' hw' => h4 w' (List.mem_cons_of_mem w hw'))

theorem runRounds_nodup (env : ScrapeEnv) (ma : Nat)
    (hpage : ((get_match_id_list env.page).map WorkItem.id).Nodup) :
    ∀ (fuel round : Nat) (listing? : Option (List WorkItem)) (acc : RunResult),
      (∀ l, listing? = some l → (l.map WorkItem.id).Nodup) →
      (load_existing_match_ids acc.store).Nodup →
      (∀ g ∈ acc.trace, (load_existing_match_ids g).Nodup) →
      (load_existing_match_ids (runRounds env ma fuel round listing? acc).store).Nodup
      ∧ ∀ g ∈ (runRounds env ma fuel round listing? acc).trace,
          (load_existing_match_ids g).Nodup := by
  intro fuel
  induction fuel with
  | zero =>
    intro round listing? acc _ h2 h3
    exact ⟨h2, h3⟩
  | succ f ih =>
    intro round listing? acc hlist h2 h3
    have hGood : ∀ l, (if round = 0 then some (get_match_id_list env.page) else listing?)
        = some l → (l.map WorkItem.id).Nodup := by
      intro l hl
      by_cases hr : round = 0
      · rw [if_pos hr] at hl
        cases hl
        exact hpage
      · rw [if_neg hr] at hl
        exact hlist l hl
    simp only [runRounds]
    by_cases hs : env.sessionOk round = true
    · rw [if_pos hs]
      cases hcase : (if round = 0 then some (get_match_id_list env.page) else listing?) with
      | none =>
        exact ⟨h2, h3⟩
      | some L =>
        have hLids : (L.map WorkItem.id).Nodup := hGood L hcase
        dsimp only
        by_cases hc1 : round = 0 ∧ L = []
        · rw [if_pos hc1]
          exact ⟨h2, h3⟩
        · rw [if_neg hc1]
          have htp_ids : ((L.filter
              (fun w => !((load_existing_match_ids acc.store).contains w.id))).map
                WorkItem.id).Nodup :=
            ((List.filter_sublist L).map WorkItem.id).nodup hLids
          have htp_disj : ∀ w ∈ L.filter
              (fun w => !((load_existing_match_ids acc.store).contains w.id)),
              w.id ∉ load_existing_match_ids acc.store := by
            intro w hw
            have hcond := (List.mem_filter.mp hw).2
            intro hmem
            have : (load_existing_match_ids acc.store).contains w.id = true := by
              simp only [List.contains]
              exact List.elem_iff.mpr hmem
            rw [this] at hcond
            simp at hcond
          obtain ⟨hst', htr'⟩ := processItems_nodup env round ma
            (L.filter (fun w => !((load_existing_match_ids acc.store).contains w.id)))
            { store := acc.store, successful_count := 0, failed_count := 0,
              trace := acc.trace, attempts := acc.attempts }
            h2 h3 htp_ids htp_disj
          by_cases hc2 : round = 0 ∧ L.filter
              (fun w => !((load_existing_match_ids acc.store).contains w.id)) = []
          · rw [if_pos hc2]
            exact ⟨h2, h3⟩
          · rw [if_neg hc2]
            by_cases hfat : (processItems env round ma
                (L.filter (fun w => !((load_existing_match_ids acc.store).contains w.id)))
                { store := acc.store, successful_count := 0, failed_count := 0,
                  trace := acc.trace, attempts := acc.attempts }).2 = true
            · rw [if_pos hfat]
              exact ih (round + 1) (some L) _ (fun l hl => by cases hl; exact hLids) hst' htr'
            · rw [if_neg hfat]
              by_cases htp0 : L.filter
                  (fun w => !((load_existing_match_ids acc.store).contains w.id)) = []
              · rw [if_pos htp0]
                exact ⟨hst', htr'⟩
              · rw [if_neg htp0]
                exact ⟨hst', htr'⟩
    · rw [if_neg hs]
      exact ih (round + 1) listing? _ hlist h2 h3

/-! ### Claim C1 -/

/-- A listing whose two match rows have id attributes `g_1_a` and
`g_2_a`, both yielding the same clean id `"a"` (the id is the substring
after the last underscore). -/
def c1dupEnv : ScrapeEnv :=
  { sessionOk := fun _ => true,
    page := { containerPresent := true, leagueBase := "NBA", playoffsCtx := none,
              rows := [Row.matchRow (some "g_1_a") none none,
                       Row.matchRow (some "g_2_a") none none] },
    outcome := fun _ _ => Outcome.success none none }

/-- C1 counterexample: when the discovered listing itself yields
duplicate ids, the dedup invariant fails. Starting from an empty (missing)
store, the run over `c1dupEnv` completes normally and persists TWO
records with `match_id = "a"`: the filter against the store is computed
once per while-iteration, before the loop, and `save_match_incremental`
appends unconditionally, so the second occurrence of the id is not
deduplicated. -/
theorem c1_dedup_cex :
    load_existing_match_ids
        (scrape_league_with_incremental_save c1dupEnv MAX_RECONNECTION_ATTEMPTS
            MAX_RECONNECTION_ATTEMPTS JsonFile.missing).store = ["a", "a"]
    ∧ ¬ (load_existing_match_ids
          (scrape_league_with_incremental_save c1dupEnv MAX_RECONNECTION_ATTEMPTS
              MAX_RECONNECTION_ATTEMPTS JsonFile.missing).store).Nodup
    ∧ (scrape_league_with_incremental_save c1dupEnv MAX_RECONNECTION_ATTEMPTS
          MAX_RECONNECTION_ATTEMPTS JsonFile.missing).ended = .finished := by
  refine ⟨by decide, by decide, by decide⟩

/-- C1 amended: dedup invariant under duplicate-free discovery. For every
run whose discovered listing has pairwise-distinct ids and whose initial
store satisfies the invariant (at most one record per `match_id`), the
store after each completed per-item save — every file state in the save
trace, and the final store — again has pairwise-distinct `match_id`s.
This holds across driver restarts within the run (the persisted ids are
reloaded and re-filtered on every while-iteration). When the listing
contains duplicate ids not yet persisted, the invariant can fail (see the
counterexample): the filter is computed from the store once per
while-iteration and `save_match_incremental` appends unconditionally. -/
theorem c1_dedup_invariant (env : ScrapeEnv) (ma mgr : Nat) (store₀ : JsonFile)
    (hpage : ((get_match_id_list env.page).map WorkItem.id).Nodup)
    (hstore : (load_existing_match_ids store₀).Nodup) :
    (load_existing_match_ids
        (scrape_league_with_incremental_save env ma mgr store₀).store).Nodup
    ∧ ∀ g ∈ (scrape_league_with_incremental_save env ma mgr store₀).trace,
        (load_existing_match_ids g).Nodup :=
  runRounds_nodup env ma hpage mgr 0 none
    { store := store₀, trace := [], attempts := [], successful_count := 0,
      failed_count := 0, session_attempts := 0, global_driver_restarts := 0,
      ended := .finished }
    (fun _ h => by cases h) hstore (fun g hg => absurd hg (List.not_mem_nil g))

/-- A listing with two distinct ids, processed successfully. -/
def c1okEnv : ScrapeEnv :=
  { sessionOk := fun _ => true,
    page := { containerPresent := true, leagueBase := "NBA", playoffsCtx := none,
              rows := [Row.matchRow (some "g_1_a") none none,
                       Row.matchRow (some "g_1_b") none none] },
    outcome := fun _ _ => Outcome.success none none }

/-- C1 witness: the amended invariant applied to a duplicate-free listing
over an initially missing store with the config bounds. -/
theorem c1_dedup_invariant_witness :
    (load_existing_match_ids
        (scrape_league_with_incremental_save c1okEnv MAX_RECONNECTION_ATTEMPTS
            MAX_RECONNECTION_ATTEMPTS JsonFile.missing).store).Nodup :=
  (c1_dedup_invariant c1okEnv MAX_RECONNECTION_ATTEMPTS MAX_RECONNECTION_ATTEMPTS
    JsonFile.missing (by decide) (by decide)).1

theorem processItems_count (env : ScrapeEnv) (round ma : Nat) (a : String) :
    ∀ (items : List WorkItem) (st : LoopState),
      (processItems env round ma items st).1.attempts.count a
        ≤ st.attempts.count a + (items.map WorkItem.id).count a := by
  intro items
  induction items with
  | nil =>
    intro st
    simp [processItems]
  | cons w rest ih =>
    intro st
    have hsingle : (st.attempts ++ [w.id]).count a
        = st.attempts.count a + if w.id == a then 1 else 0 := by
      simp [List.count_append, List.count_cons]
    have hcons : ((w :: rest).map WorkItem.id).count a
        = (rest.map WorkItem.id).count a + if w.id == a then 1 else 0 := by
      simp [List.count_cons]
    cases ho : env.outcome round w.id with
    | success dv sv =>
      simp only [processItems, scrape_match_with_error_handling, ho, save_snd]
      calc (processItems env round ma rest _).1.attempts.count a
          ≤ (st.attempts ++ [w.id]).count a + (rest.map WorkItem.id).count a := ih _
        _ ≤ st.attempts.count a + ((w :: rest).map WorkItem.id).count a := by
            rw [hsingle, hcons]; omega
    | fail =>
      simp only [processItems, scrape_match_with_error_handling, ho]
      calc (processItems env round ma rest _).1.attempts.count a
          ≤ (st.attempts ++ [w.id]).count a + (rest.map WorkItem.id).count a := ih _
        _ ≤ st.attempts.count a + ((w :: rest).map WorkItem.id).count a := by
            rw [hsingle, hcons]; omega
    | fatal =>
      by_cases hma : 1 < ma
      · simp only [processItems, scrape_match_with_error_handling, ho, if_pos hma]
        rw [hsingle, hcons]
        omega
      · simp only [processItems, scrape_match_with_error_handling, ho, if_neg hma]
        calc (processItems env round ma rest _).1.attempts.count a
            ≤ (st.attempts ++ [w.id]).count a + (rest.map WorkItem.id).count a := ih _
          _ ≤ st.attempts.count a + ((w :: rest).map WorkItem.id).count a := by
              rw [hsingle, hcons]; omega

theorem runRounds_count (env : ScrapeEnv) (ma : Nat) (a : String)
    (hpage : ((get_match_id_list env.page).map WorkItem.id).count a ≤ 1) :
    ∀ (fuel round : Nat) (listing? : Option (List WorkItem)) (acc : RunResult),
      (∀ l, listing? = some l → (l.map WorkItem.id).count a ≤ 1) →
      (runRounds env ma fuel round listing? acc).attempts.count a
        ≤ acc.attempts.count a + fuel := by
  intro fuel
  induction fuel with
  | zero =>
    intro round listing? acc _
    simp [runRounds]
  | succ f ih =>
    intro round listing? acc hlist
    have hGood : ∀ l, (if round = 0 then some (get_match_id_list env.page) else listing?)
        = some l → (l.map WorkItem.id).count a ≤ 1 := by
      intro l hl
      by_cases hr : round = 0
      · rw [if_pos hr] at hl
        cases hl
        exact hpage
      · rw [if_neg hr] at hl
        exact hlist l hl
    simp only [runRounds]
    by_cases hs : env.sessionOk round = true
    · rw [if_pos hs]
      cases hcase : (if round = 0 then some (get_match_id_list env.page) else listing?) with
      | none => simp
      | some L =>
        have hLcount : (L.map WorkItem.id).count a ≤ 1 := hGood L hcase
        have htp : ((L.filter
            (fun w => !((load_existing_match_ids acc.store).contains w.id))).map
              WorkItem.id).count a ≤ 1 :=
          le_trans (((List.filter_sublist L).map WorkItem.id).count_le a) hLcount
        have hproc : (processItems env round ma
            (L.filter (fun w => !((load_existing_match_ids acc.store).contains w.id)))
            { store := acc.store, successful_count := 0, failed_count := 0,
              trace := acc.trace, attempts := acc.attempts }).1.attempts.count a
            ≤ acc.attempts.count a + 1 := by
          refine le_trans (processItems_count env round ma a _ _) ?_
          dsimp only
          omega
        dsimp only
        by_cases hc1 : round = 0 ∧ L = []
        · rw [if_pos hc1]
          simp
        · rw [if_neg hc1]
          by_cases hc2 : round = 0 ∧ L.filter
              (fun w => !((load_existing_match_ids acc.store).contains w.id)) = []
          · rw [if_pos hc2]
            simp
          · rw [if_neg hc2]
            by_cases hfat : (processItems env round ma
                (L.filter (fun w => !((load_existing_match_ids acc.store).contains w.id)))
                { store := acc.store, successful_count := 0, failed_count := 0,
                  trace := acc.trace, attempts := acc.attempts }).2 = true
            · rw [if_pos hfat]
              refine le_trans (ih (round + 1) (some L) _ (fun l hl => by cases hl; exact hLcount)) ?_
              dsimp only
              omega
            · rw [if_neg hfat]
              by_cases htp0 : L.filter
                  (fun w => !((load_existing_match_ids acc.store).contains w.id)) = []
              · rw [if_pos htp0]
                dsimp only
                omega
              · rw [if_neg htp0]
                dsimp only
                omega
    · rw [if_neg hs]
      refine le_trans (ih (round + 1) listing? _ hlist) ?_
      dsimp only
      omega

/-! ### Claim C2 -/

/-- A listing with the single item `"b"` whose processing always raises
`WebDriverException`. -/
def c2fatalEnv : ScrapeEnv :=
  { sessionOk := fun _ => true,
    page := { containerPresent := true, leagueBase := "L", playoffsCtx := none,
              rows := [Row.matchRow (some "g_1_b") none none] },
    outcome := fun _ _ => Outcome.fatal }

/-- C2 counterexample: an item whose processing always raises a
session-fatal error is never "recorded as failed and skipped for the
remainder of the run". Over `c2fatalEnv` with the config bounds, the item
`"b"` is attempted once per while-iteration — five times in all — and the
run then ends in the aborted state with both counters at zero and nothing
persisted: the orchestration loop always calls
`scrape_match_with_error_handling` with `attempt = 1 < max_attempts`, so
the handler re-raises on every fatal error and its record-as-failed
branch never executes; exhausting the global restart bound ends the run
instead of skipping the item. -/
theorem c2_item_retry_cex :
    (scrape_league_with_incremental_save c2fatalEnv MAX_RECONNECTION_ATTEMPTS
        MAX_RECONNECTION_ATTEMPTS JsonFile.missing).ended = .aborted
    ∧ (scrape_league_with_incremental_save c2fatalEnv MAX_RECONNECTION_ATTEMPTS
        MAX_RECONNECTION_ATTEMPTS JsonFile.missing).failed_count = 0
    ∧ (scrape_league_with_incremental_save c2fatalEnv MAX_RECONNECTION_ATTEMPTS
        MAX_RECONNECTION_ATTEMPTS JsonFile.missing).successful_count = 0
    ∧ (scrape_league_with_incremental_save c2fatalEnv MAX_RECONNECTION_ATTEMPTS
        MAX_RECONNECTION_ATTEMPTS JsonFile.missing).attempts = ["b", "b", "b", "b", "b"]
    ∧ (scrape_league_with_incremental_save c2fatalEnv MAX_RECONNECTION_ATTEMPTS
        MAX_RECONNECTION_ATTEMPTS JsonFile.missing).store = JsonFile.missing := by
  refine ⟨by decide, by decide, by decide, by decide, by decide⟩

/-- C2 amended: the cross-restart retry of an attempted-but-incomplete
item is bounded by `max_global_restarts` (the same
`MAX_RECONNECTION_ATTEMPTS` constant), not by a per-item attempt budget,
and exhausting it aborts the whole run rather than recording the item as
failed and skipping it. Precisely: (1) when the discovered listing has
pairwise-distinct ids, every id is handed to
`scrape_match_with_error_handling` at most `max_global_restarts` times in
one run (at most once per while-iteration); (2) the orchestration loop
always passes `attempt = 1`, so whenever `max_attempts ≥ 2` (the config
value is 5) the handler re-raises on a session-fatal error — its
record-as-failed branch is unreachable from the loop. -/
theorem c2_item_retry_bound (env : ScrapeEnv) (ma mgr : Nat) (store₀ : JsonFile)
    (a : String)
    (hpage : ((get_match_id_list env.page).map WorkItem.id).Nodup) :
    (scrape_league_with_incremental_save env ma mgr store₀).attempts.count a ≤ mgr
    ∧ (∀ (w : WorkItem) (f : JsonFile), 1 < ma →
        (scrape_match_with_error_handling Outcome.fatal w f 1 ma).2 = .raised) := by
  constructor
  · have h1 : ((get_match_id_list env.page).map WorkItem.id).count a ≤ 1 :=
      List.nodup_iff_count_le_one.mp hpage a
    have h2 := runRounds_count env ma a h1 mgr 0 none
      { store := store₀, trace := [], attempts := [], successful_count := 0,
        failed_count := 0, session_attempts := 0, global_driver_restarts := 0,
        ended := .finished }
      (fun _ h => by cases h)
    simpa [scrape_league_with_incremental_save] using h2
  · intro w f hma
    simp [scrape_match_with_error_handling, hma]

/-- C2 witness: the amended bound applied to the always-fatal single-item
environment: the item `"b"` is attempted at most 5 times, and the handler
called with `attempt = 1` re-raises on a fatal error. -/
theorem c2_item_retry_bound_witness :
    (scrape_league_with_incremental_save c2fatalEnv MAX_RECONNECTION_ATTEMPTS
        MAX_RECONNECTION_ATTEMPTS JsonFile.missing).attempts.count "b"
      ≤ MAX_RECONNECTION_ATTEMPTS
    ∧ (scrape_match_with_error_handling Outcome.fatal ⟨"b", "L"⟩ JsonFile.missing 1
        MAX_RECONNECTION_ATTEMPTS).2 = .raised :=
  ⟨(c2_item_retry_bound c2fatalEnv MAX_RECONNECTION_ATTEMPTS MAX_RECONNECTION_ATTEMPTS
      JsonFile.missing "b" (by decide)).1,
   (c2_item_retry_bound c2fatalEnv MAX_RECONNECTION_ATTEMPTS MAX_RECONNECTION_ATTEMPTS
      JsonFile.missing "b" (by decide)).2 ⟨"b", "L"⟩ JsonFile.missing (by decide)⟩
